import Mathlib

/-!
Verification of the stable-diffusion-webui-daam extension
(`src/webui_daam/daam.py` and `src/webui_daam/image.py`) against its
natural-language specification.  Python functions are shallowly embedded as
executable Lean definitions; external collaborators (the host tokenizer, the
DAAM trace object, matplotlib rendering) are abstracted at their call
interface as function parameters or tagged values.  Python exceptions are
modelled with `Except`/`Option`.  The file lists all definitions first and
all theorems afterwards.
-/

namespace WebuiDaam

/-- Embedding of `calc_context_size` (daam.py lines 749-751):
`len_check = 0 if (token_length - 1) < 0 else token_length - 1`
followed by `((int)(len_check // 75) + 1) * 77`.  Integer division is on a
non-negative dividend, where Python floor division agrees with Lean `Int`
division. -/
def calc_context_size (token_length : Int) : Int :=
  let len_check : Int := if token_length - 1 < 0 then 0 else token_length - 1
  (len_check / 75 + 1) * 77

/-- One chunk returned by the host encoder's `tokenize_line` (external
collaborator, see daam.py lines 807-809): content token ids and per-token
emphasis multipliers.  Multipliers are modelled as rationals. -/
structure PromptChunk where
  tokens : List Nat
  multipliers : List ℚ

/-- The fields of `PromptAnalyzer` (daam.py lines 767-802) that the claims
concern.  Diagnostic metadata (`fixes`, `hijack_comments`,
`used_custom_terms`) is omitted: no claim reads it. -/
structure PromptAnalyzer where
  token_count : Nat
  context_size : Nat
  tokens : List Nat
  multipliers : List ℚ

/-- Embedding of the segment-building loop of `PromptAnalyzer.__init__`
(daam.py lines 794-802): for `i in range(context_size // 77)` extend the
output with `[id_start] + flat[i*75 : i*75+75] + [id_end]`.  The Python
slice `flat[a : a+75]` is `(flat.drop a).take 75` and silently yields a
shorter list when `flat` runs out; nothing pads the segment. -/
def build_segments {α : Type} (startv endv : α) (flat : List α) : Nat → List α
  | 0 => []
  | n + 1 =>
      build_segments startv endv flat n ++
        ([startv] ++ (flat.drop (n * 75)).take 75 ++ [endv])

/-- Embedding of `PromptAnalyzer.__init__` (daam.py lines 767-802).  The
external `clip.tokenize_line(text)` call is abstracted as the given
`chunks` and raw `token_count`; the flattening with
`chain.from_iterable` is `List.flatten`, and `context_size` is
`calc_context_size(token_count)`. -/
def PromptAnalyzer.ofChunks (id_start id_end : Nat) (chunks : List PromptChunk)
    (token_count : Nat) : PromptAnalyzer :=
  let context_size : Nat := (calc_context_size (token_count : Int)).toNat
  let flat_tokens := (chunks.map PromptChunk.tokens).flatten
  let flat_multipliers := (chunks.map PromptChunk.multipliers).flatten
  { token_count := token_count
    context_size := context_size
    tokens := build_segments id_start id_end flat_tokens (context_size / 77)
    multipliers :=
      build_segments (1 : ℚ) (1 : ℚ) flat_multipliers (context_size / 77) }

/-- Embedding of the inner loop of `PromptAnalyzer.calc_word_indecies`
(daam.py lines 846-853): starting at position `next`, check that each
remaining needle token equals the analyzed token there, failing when the
position runs past the end (`next >= len(tokens) or needle != tokens[next]`). -/
def check_needles (tokens : List Nat) : List Nat → Nat → Bool
  | [], _ => true
  | needle :: rest, next =>
      if tokens.length ≤ next then false
      else if tokens.getD next 0 ≠ needle then false
      else check_needles tokens rest (next + 1)

/-- Embedding of the scan loop of `PromptAnalyzer.calc_word_indecies`
(daam.py lines 839-870).  The Python `for i, token in enumerate(tokens)`
is a structural walk over the suffix `rem` of `tokens` starting at index
`i` (so `rem = tokens.drop i`); `acc` is `merge_idxs`, `lc` is
`limit_count`, `cp` is `current_pos`, and the `break` statements are the
early returns.  `merge_idxs.extend(list(range(i, next)))` on a full match
is `acc ++ List.range' i needles.length`. -/
def cwi_loop (tokens needles : List Nat) (limit : Int) (start_pos : Nat) :
    List Nat → Nat → Nat → List Nat → Nat → List Nat × Nat
  | [], _, _, acc, cp => (acc, cp)
  | token :: rem, i, lc, acc, _ =>
      if i < start_pos then
        cwi_loop tokens needles limit start_pos rem (i + 1) lc acc i
      else if needles.getD 0 0 = token ∧ 1 < needles.length then
        if check_needles tokens (needles.drop 1) (i + 1) then
          if 0 < limit then
            if limit ≤ (lc + 1 : Int) then (acc ++ List.range' i needles.length, i)
            else
              cwi_loop tokens needles limit start_pos rem (i + 1) (lc + 1)
                (acc ++ List.range' i needles.length) i
          else
            cwi_loop tokens needles limit start_pos rem (i + 1) lc
              (acc ++ List.range' i needles.length) i
        else cwi_loop tokens needles limit start_pos rem (i + 1) lc acc i
      else if needles.getD 0 0 = token then
        if 0 < limit then
          if limit ≤ (lc + 1 : Int) then (acc ++ [i], i)
          else
            cwi_loop tokens needles limit start_pos rem (i + 1) (lc + 1)
              (acc ++ [i]) i
        else cwi_loop tokens needles limit start_pos rem (i + 1) lc (acc ++ [i]) i
      else cwi_loop tokens needles limit start_pos rem (i + 1) lc acc i

/-- Embedding of `PromptAnalyzer.calc_word_indecies` (daam.py lines
832-870).  The `self.encode(word.lower())` call into the external encoder
is abstracted as the given `needles` sequence; `self.tokens` is `tokens`.
Defaults in the source are `limit = -1`, `start_pos = 0`.  Returns
`(merge_idxs, current_pos)`. -/
def calc_word_indecies (tokens needles : List Nat) (limit : Int)
    (start_pos : Nat) : List Nat × Nat :=
  cwi_loop tokens needles limit start_pos tokens 0 0 [] 0

/-- Specification-side predicate: the full needle sequence appears
contiguously in `tokens` starting at position `i`. -/
def wordMatchesAt (tokens needles : List Nat) (i : Nat) : Bool :=
  (tokens.drop i).take needles.length == needles

/-- Specification-side helper: all match indices contributed by positions
`i, i+1, ...` (walking the suffix `rem = tokens.drop i`), each matching
position contributing its full run of needle positions. -/
def suffixMatches (tokens needles : List Nat) : List Nat → Nat → List Nat
  | [], _ => []
  | _ :: rem, i =>
      (if wordMatchesAt tokens needles i then List.range' i needles.length
       else []) ++ suffixMatches tokens needles rem (i + 1)

/-- Specification-side value for the word lookup: the flattened list of
the positions of every contiguous occurrence of the needle sequence. -/
def allMatchIndices (tokens needles : List Nat) : List Nat :=
  suffixMatches tokens needles tokens 0

/-- Embedding of `add_to_start` (image.py lines 224-241).  `imgs` is either
a list of images (`Sum.inl`) or a single image (`Sum.inr`); images are
opaque and represented by `Nat` tags.  The Python `images[:0] = imgs` and
`images.insert(0, imgs)` prepend in place, and then
`offset += len(images) if isinstance(imgs, list) else 1` reads the length
of the already-extended `images` list. -/
def add_to_start (images : List Nat) (imgs : List Nat ⊕ Nat)
    (infotexts : List String) (infotext : String) (offset : Nat) :
    List Nat × List String × Nat :=
  let images2 := match imgs with
    | .inl l => l ++ images
    | .inr i => i :: images
  let infotexts2 := infotext :: infotexts
  let offset2 := match imgs with
    | .inl _ => offset + images2.length
    | .inr _ => offset + 1
  (images2, infotexts2, offset2)

/-- The host's `processed` result fields touched by `Script.postprocess`
(daam.py lines 430-484): the ordered image list, the info-text list, and
the index of the first real image. -/
structure Processed where
  images : List Nat
  infotexts : List String
  index_of_first_image : Nat

/-- Embedding of one iteration of the insertion loop of
`Script.postprocess` (daam.py lines 438-483) for one (seed, overlays,
image) triple: if overlays exist and the grid is enabled and images are
shown, insert the combined grid image at the front; then, when images are
shown, prepend the overlay images; finally, when images are shown and the
per-image grid is enabled, insert the per-image grid image — each time
bumping `index_of_first_image` by the number of inserted images and
duplicating `infotexts[0]` (read with a default for an empty list). -/
def postprocess_insert_step (show_images use_grid grid_per_image : Bool)
    (heatmap_images : List Nat) (grid_img img_heatmap_grid_img : Nat)
    (pr : Processed) : Processed :=
  let pr1 :=
    if heatmap_images ≠ [] ∧ use_grid = true ∧ show_images = true then
      { images := grid_img :: pr.images
        infotexts := pr.infotexts.headD "" :: pr.infotexts
        index_of_first_image := pr.index_of_first_image + 1 }
    else pr
  let pr2 :=
    if show_images = true then
      { images := heatmap_images ++ pr1.images
        infotexts :=
          List.replicate heatmap_images.length (pr1.infotexts.headD "") ++
            pr1.infotexts
        index_of_first_image :=
          pr1.index_of_first_image + heatmap_images.length }
    else pr1
  if show_images = true ∧ grid_per_image = true then
    { images := img_heatmap_grid_img :: pr2.images
      infotexts := pr2.infotexts.headD "" :: pr2.infotexts
      index_of_first_image := pr2.index_of_first_image + 1 }
  else pr2

/-- Result of the matplotlib rendering in `plot_overlay_heat_map`
(image.py lines 25-92), abstracted as a tagged value recording what was
composed: the word's heat-map tensor, the base image, the optional caption
word, and the blend alpha. -/
structure Overlay where
  heat : Nat
  image : Nat
  word : Option String
  alpha : ℚ
deriving DecidableEq

/-- Embedding of `create_heatmap_image_overlay` (image.py lines 95-120):
requests the word's heat map from the collaborator
(`heatmap.compute_word_heat_map(word, batch_idx)`, which may raise a
`ValueError`, modelled as `Except.error`); on the error it logs a warning
and returns nothing (`none`), otherwise it renders and returns the
overlay image. -/
def create_heatmap_image_overlay
    (compute_word_heat_map : String → Nat → Except Unit Nat)
    (attention_word : String) (image : Nat) (show_word : Bool) (alpha : ℚ)
    (batch_idx : Nat) : Option Overlay :=
  match compute_word_heat_map attention_word batch_idx with
  | .error _ => none
  | .ok word_heatmap =>
      some { heat := word_heatmap
             image := image
             word := if show_word then some attention_word else none
             alpha := alpha }

/-- Embedding of the per-word loop of `Script.before_image_saved`
(daam.py lines 579-607) for one global heat map:
`img = create_heatmap_image_overlay(...)` immediately followed by
`heatmap_images.append(img)` — the result is appended unconditionally,
including the `None` produced on a value error. -/
def before_image_saved_heatmap_images (attentions : List String)
    (compute_word_heat_map : String → Nat → Except Unit Nat) (image : Nat)
    (show_caption : Bool) (alpha : ℚ) (batch_idx : Nat) :
    List (Option Overlay) :=
  attentions.map fun attention =>
    create_heatmap_image_overlay compute_word_heat_map attention image
      show_caption alpha batch_idx

/-- `Script.GRID_LAYOUT_AUTO` (daam.py line 47). -/
def GRID_LAYOUT_AUTO : String := "Auto"

/-- `Script.GRID_LAYOUT_PREVENT_EMPTY` (daam.py line 48). -/
def GRID_LAYOUT_PREVENT_EMPTY : String := "Prevent Empty Spot"

/-- `Script.GRID_LAYOUT_BATCH_LENGTH_AS_ROW` (daam.py line 49). -/
def GRID_LAYOUT_BATCH_LENGTH_AS_ROW : String := "Batch Length As Row"

/-- The call into the host's `image_grid` helper made by
`Script.make_grid`, recorded as a tagged value: either a plain
`image_grid(img_list)` call or an
`image_grid(img_list, batch_size=..., rows=...)` call. -/
inductive GridCall where
  | plain (img_list : List Nat)
  | withRows (img_list : List Nat) (batch_size rows : Nat)
deriving DecidableEq

/-- Embedding of `Script.make_grid` (daam.py lines 499-523).  The `self`
state is passed explicitly: `grid_layout`, the attention-word count
(`len(self.attentions)`) and the seed count
(`len(self.heatmap_images.keys())`); `p` contributes `batch_size` and
`n_iter`.  An unrecognized resolved layout raises
`RuntimeError(f"Invalid grid layout: ...")`, modelled as `Except.error`
carrying the message. -/
def make_grid (grid_layout : String) (p_batch_size p_n_iter : Nat)
    (num_attentions num_seeds : Nat) (img_list : List Nat)
    (layers_as_row : Bool) : Except String GridCall :=
  let gl :=
    if grid_layout = GRID_LAYOUT_AUTO then
      if p_batch_size * p_n_iter = 1 then GRID_LAYOUT_PREVENT_EMPTY
      else GRID_LAYOUT_BATCH_LENGTH_AS_ROW
    else grid_layout
  if gl = GRID_LAYOUT_PREVENT_EMPTY then .ok (.plain img_list)
  else if gl = GRID_LAYOUT_BATCH_LENGTH_AS_ROW then
    if layers_as_row then .ok (.withRows img_list num_attentions num_seeds)
    else .ok (.withRows img_list p_batch_size (p_batch_size * p_n_iter))
  else .error ("Invalid grid layout: " ++ gl)

/-- The semantics of a Python list comprehension whose body may raise:
the body is evaluated once per element, in order, and the first raised
fault aborts the whole comprehension. -/
def collectExcept {α β : Type} (f : α → Except Unit β) :
    List α → Except Unit (List β)
  | [] => .ok []
  | a :: rest => do
      let b ← f a
      let bs ← collectExcept f rest
      pure (b :: bs)

/-- Embedding of `calc_global_heatmap` (daam.py lines 652-672).  The
external `trace.compute_global_heat_map` collaborator is a function from
an optional layer index (`some layer_idx` for the per-layer requests,
`none` for the aggregate request) to a heat map or a runtime fault
(`Except.error`); the list comprehension evaluates the requests in order
and a fault anywhere reaches the `except RuntimeError` handler, which
logs a warning and returns the empty list. -/
def calc_global_heatmap {α : Type} (num_input num_output : Nat)
    (trace_each_layers : Bool)
    (compute_global_heat_map : Option Nat → Except Unit α) : List α :=
  let result : Except Unit (List α) :=
    if trace_each_layers then
      collectExcept (fun layer_idx => compute_global_heat_map (some layer_idx))
        (List.range (num_input + 1 + num_output))
    else do
      let h ← compute_global_heat_map none
      pure [h]
  match result with
  | .ok global_heatmaps => global_heatmaps
  | .error _ => []

/-- State of the DAAM trace collaborator as visible through its `unhook`
interface (cf. the comment at daam.py line 630): calling `unhook` on a
trace that is not currently hooked raises a `RuntimeError`. -/
structure Trace where
  hooked : Bool
deriving DecidableEq

/-- Interface model of `trace.unhook()`: succeeds (clearing the hook)
when hooked, raises a runtime fault when not hooked. -/
def Trace.unhook (t : Trace) : Except Unit Trace :=
  if t.hooked then .ok { hooked := false } else .error ()

/-- Embedding of `Script.try_unhook` (daam.py lines 626-632): when
`self.trace` is present, attempt `self.trace.unhook()` and swallow the
`RuntimeError`; the stored trace reference is kept either way.  Returns
the new `self.trace` state; the operation itself never raises. -/
def try_unhook (trace : Option Trace) : Option Trace :=
  match trace with
  | none => none
  | some t =>
      match t.unhook with
      | .ok t2 => some t2
      | .error _ => some t

/-- A Python value as passed to `escape_prompt` (daam.py lines 754-764):
a string, a list of such values, the value `None`, or a value of any
other type. -/
inductive PyVal where
  | str (s : String)
  | list (l : List PyVal)
  | none
  | other

/-- Fuel-driven scanner for `re.sub(r":\d+\.*\d*", "", s)` (daam.py line
758): at each `:` followed by a digit, drop the digits, then any dots,
then any digits, and continue after the match (Python `re.sub` scans left
to right and restarts after each non-overlapping match); every other
character is kept.  Each consuming step removes at least one character,
so fuel `l.length` suffices. -/
def rcnFuel : Nat → List Char → List Char
  | 0, l => l
  | _ + 1, [] => []
  | fuel + 1, c :: rest =>
      if c = ':' ∧ (rest.headD ' ').isDigit = true then
        rcnFuel fuel
          (((rest.dropWhile Char.isDigit).dropWhile
            (fun ch => ch == '.')).dropWhile Char.isDigit)
      else c :: rcnFuel fuel rest

/-- Embedding of the string branch of `escape_prompt` (daam.py lines
754-759): lower-case the text (`prompt.lower()`, modelled for ASCII),
delete every `(`, `)`, `[`, `]` (`re.sub(r"[\(\)\[\]]", "", ...)`), then
delete every `:` followed by a number (`re.sub(r":\d+\.*\d*", "", ...)`). -/
def escape_prompt_text (s : String) : String :=
  let lowered := s.data.map Char.toLower
  let no_brackets := lowered.filter fun c =>
    !(c == '(' || c == ')' || c == '[' || c == ']')
  String.mk (rcnFuel no_brackets.length no_brackets)

mutual

/-- Embedding of `escape_prompt` (daam.py lines 754-764): a string is
transformed by `escape_prompt_text`; for a list, the recursion's result
for each element is appended
(`prompt_new.append(escape_prompt(prompt[i]))`, so a non-string,
non-list element contributes Python `None` inside the list); any other
value falls through both `isinstance` branches and the function returns
`None`. -/
def escape_prompt : PyVal → PyVal
  | .str s => .str (escape_prompt_text s)
  | .list l => .list (escape_prompt_list l)
  | .none => .none
  | .other => .none

/-- The element-wise loop of `escape_prompt`'s list branch. -/
def escape_prompt_list : List PyVal → List PyVal
  | [] => []
  | p :: rest => escape_prompt p :: escape_prompt_list rest

end

end WebuiDaam

namespace WebuiDaam

/-- Bridge lemma: on natural inputs, `calc_context_size` computes the
closed natural-number formula `((tc - 1) / 75 + 1) * 77` (with truncated
subtraction). -/
theorem calc_context_size_toNat (tc : Nat) :
    (calc_context_size (tc : Int)).toNat = ((tc - 1) / 75 + 1) * 77 := by
  simp only [calc_context_size]
  split <;> omega

/-- Each emitted segment is exactly 77 wide as long as the flattened
content covers all `n` segment windows, so the built sequence has length
`77 * n`. -/
theorem build_segments_length {α : Type} (s e : α) (flat : List α) (n : Nat)
    (h : 75 * n ≤ flat.length) :
    (build_segments s e flat n).length = 77 * n := by
  induction n with
  | zero => simp [build_segments]
  | succ k ih =>
      have hk : 75 * k ≤ flat.length := by omega
      simp [build_segments, ih hk]
      omega

/-- The claim C2 property for `calc_context_size`: closed formula, positive
multiple of 77, and concrete values. -/
theorem C2_calc_context_size :
    (∀ n : Int, 0 ≤ n →
      calc_context_size n = (max (n - 1) 0 / 75 + 1) * 77 ∧
      (77 : Int) ∣ calc_context_size n ∧
      0 < calc_context_size n) ∧
    calc_context_size 0 = 77 ∧
    calc_context_size 75 = 77 ∧
    calc_context_size 76 = 154 ∧
    calc_context_size 150 = 154 ∧
    calc_context_size 151 = 231 := by
  refine ⟨fun n _ => ?_, by decide, by decide, by decide, by decide, by decide⟩
  have hif : (if n - 1 < 0 then (0 : Int) else n - 1) = max (n - 1) 0 := by
    rcases le_or_lt 1 n with h1 | h1
    · rw [if_neg (by omega), max_eq_left (by omega)]
    · rw [if_pos (by omega), max_eq_right (by omega)]
  have hdef : calc_context_size n = (max (n - 1) 0 / 75 + 1) * 77 := by
    show (_ / 75 + 1) * 77 = _
    rw [hif]
  refine ⟨hdef, ⟨max (n - 1) 0 / 75 + 1, by rw [hdef]; ring⟩, ?_⟩
  rw [hdef]
  have h2 : (0 : Int) ≤ max (n - 1) 0 / 75 :=
    Int.ediv_nonneg (le_max_right _ _) (by omega)
  have h3 : (0 : Int) < max (n - 1) 0 / 75 + 1 := by omega
  exact mul_pos h3 (by norm_num)

/-- Witness instantiating `C2_calc_context_size` at the concrete input 76. -/
theorem C2_calc_context_size_witness :
    calc_context_size 76 = (max (76 - 1) 0 / 75 + 1) * 77 ∧
    (77 : Int) ∣ calc_context_size 76 ∧
    0 < calc_context_size 76 :=
  C2_calc_context_size.1 76 (by decide)

/-- Counterexample to claim C1 as stated: when the flattened content
sequence is shorter than `(context_size / 77) * 75`, the emitted segments
are truncated, not padded to width 77, so `len(tokens)` falls short of
`context_size`.  Here `token_count = 76` gives `context_size = 154`
(two segments), but the single content token yields
`[id_start, 5, id_end, id_start, id_end]` of length 5: the second segment
is 2 entries wide, not 77. -/
theorem C1_analyzer_invariant_counterexample :
    (PromptAnalyzer.ofChunks 49406 49407 [⟨[5], [1]⟩] 76).context_size = 154 ∧
    (PromptAnalyzer.ofChunks 49406 49407 [⟨[5], [1]⟩] 76).tokens =
      [49406, 5, 49407, 49406, 49407] ∧
    (PromptAnalyzer.ofChunks 49406 49407 [⟨[5], [1]⟩] 76).tokens.length ≠
      (PromptAnalyzer.ofChunks 49406 49407 [⟨[5], [1]⟩] 76).context_size := by
  refine ⟨by decide, by decide, by decide⟩

/-- Amended claim C1: the analyzer invariant
`len(tokens) = len(multipliers) = context_size` with `context_size % 77 = 0`
holds whenever the flattened content token and multiplier sequences cover
all `context_size / 77` segment windows of 75 entries (which the host
tokenizer guarantees by padding each chunk to exactly 75 entries); segments
whose slice runs past the content end are truncated, not padded. -/
theorem C1_analyzer_invariant (id_start id_end : Nat)
    (chunks : List PromptChunk) (tc : Nat)
    (h1 : 75 * ((PromptAnalyzer.ofChunks id_start id_end chunks tc).context_size / 77) ≤
      ((chunks.map PromptChunk.tokens).flatten).length)
    (h2 : 75 * ((PromptAnalyzer.ofChunks id_start id_end chunks tc).context_size / 77) ≤
      ((chunks.map PromptChunk.multipliers).flatten).length) :
    (PromptAnalyzer.ofChunks id_start id_end chunks tc).tokens.length =
      (PromptAnalyzer.ofChunks id_start id_end chunks tc).context_size ∧
    (PromptAnalyzer.ofChunks id_start id_end chunks tc).multipliers.length =
      (PromptAnalyzer.ofChunks id_start id_end chunks tc).context_size ∧
    (PromptAnalyzer.ofChunks id_start id_end chunks tc).context_size % 77 = 0 := by
  have hcs : (PromptAnalyzer.ofChunks id_start id_end chunks tc).context_size =
      ((tc - 1) / 75 + 1) * 77 := calc_context_size_toNat tc
  have hdiv : (PromptAnalyzer.ofChunks id_start id_end chunks tc).context_size / 77 =
      (tc - 1) / 75 + 1 := by
    rw [hcs]
    exact Nat.mul_div_cancel _ (by norm_num)
  have htok : (PromptAnalyzer.ofChunks id_start id_end chunks tc).tokens.length =
      77 * ((PromptAnalyzer.ofChunks id_start id_end chunks tc).context_size / 77) :=
    build_segments_length _ _ _ _ h1
  have hmul : (PromptAnalyzer.ofChunks id_start id_end chunks tc).multipliers.length =
      77 * ((PromptAnalyzer.ofChunks id_start id_end chunks tc).context_size / 77) :=
    build_segments_length _ _ _ _ h2
  refine ⟨?_, ?_, ?_⟩
  · rw [htok, hdiv, hcs]; ring
  · rw [hmul, hdiv, hcs]; ring
  · rw [hcs]; omega

/-- The inner needle loop succeeds exactly when the remaining needle tokens
appear contiguously in `tokens` starting at position `next`. -/
theorem check_needles_iff (tokens : List Nat) (rest : List Nat) :
    ∀ next : Nat, check_needles tokens rest next = true ↔
      (tokens.drop next).take rest.length = rest := by
  induction rest with
  | nil => intro next; simp [check_needles]
  | cons needle rest ih =>
      intro next
      simp only [check_needles]
      by_cases hlen : tokens.length ≤ next
      · rw [if_pos hlen, List.drop_eq_nil_of_le hlen]
        simp
      · push_neg at hlen
        have hgetD : tokens.getD next 0 = tokens[next] :=
          List.getD_eq_getElem tokens 0 hlen
        rw [if_neg (Nat.not_le.mpr hlen), List.drop_eq_getElem_cons hlen]
        simp only [List.length_cons, List.take_succ_cons]
        rw [hgetD]
        by_cases heq : tokens[next] = needle
        · rw [if_neg (not_not_intro heq), ih (next + 1)]
          constructor
          · intro h
            rw [h, heq]
          · intro h
            injection h
        · rw [if_pos heq]
          constructor
          · intro h
            exact absurd h (by decide)
          · intro h
            injection h with h1 _
            exact absurd h1 heq

/-- Characterization of the scan loop when `limit ≤ 0` (no early stop) and
`start_pos = 0`: walking the suffix `rem = tokens.drop i` appends to the
accumulator exactly the flattened positions of all needle occurrences from
position `i` on. -/
theorem cwi_loop_nonpos_eq (tokens needles : List Nat) (limit : Int)
    (hlim : limit ≤ 0) (hne : needles ≠ []) :
    ∀ (rem : List Nat) (i lc : Nat) (acc : List Nat) (cp : Nat),
      tokens.drop i = rem →
      (cwi_loop tokens needles limit 0 rem i lc acc cp).1 =
        acc ++ suffixMatches tokens needles rem i := by
  intro rem
  induction rem generalizing needles with
  | nil =>
      intro i lc acc cp _
      simp [cwi_loop, suffixMatches]
  | cons token rem ih =>
      intro i lc acc cp hdrop
      obtain ⟨n0, ntail, rfl⟩ : ∃ n0 ntail, needles = n0 :: ntail := by
        cases needles with
        | nil => exact absurd rfl hne
        | cons a b => exact ⟨a, b, rfl⟩
      have hlt : i < tokens.length := by
        by_contra hle
        push_neg at hle
        rw [List.drop_eq_nil_of_le hle] at hdrop
        exact List.noConfusion hdrop
      have hcons : tokens[i] :: tokens.drop (i + 1) = token :: rem :=
        (List.drop_eq_getElem_cons hlt).symm.trans hdrop
      have htok : tokens[i] = token := by injection hcons
      have hdrop1 : tokens.drop (i + 1) = rem := by injection hcons
      have hget : (tokens.getD i 0) = token :=
        (List.getD_eq_getElem tokens 0 hlt).trans htok
      have hnotlt : ¬ i < 0 := Nat.not_lt_zero i
      have hnolim : ¬ (0 : Int) < limit := by omega
      have hwma : wordMatchesAt tokens (n0 :: ntail) i =
          ((token :: rem.take ntail.length) == (n0 :: ntail)) := by
        simp [wordMatchesAt, hdrop, List.take_succ_cons]
      have hcn : check_needles tokens ntail (i + 1) = true ↔
          rem.take ntail.length = ntail := by
        rw [check_needles_iff tokens ntail (i + 1), hdrop1]
      by_cases hA : (n0 :: ntail).getD 0 0 = token ∧ 1 < (n0 :: ntail).length
      · have hc1 : n0 = token := hA.1
        by_cases hsucc : check_needles tokens ((n0 :: ntail).drop 1) (i + 1) = true
        · have htails : rem.take ntail.length = ntail := hcn.mp hsucc
          have hmatch : wordMatchesAt tokens (n0 :: ntail) i = true := by
            rw [hwma]
            simp [hc1, htails]
          simp only [cwi_loop]
          rw [if_neg hnotlt, if_pos hA, if_pos hsucc, if_neg hnolim,
            ih (n0 :: ntail) hne (i + 1) lc _ i hdrop1]
          simp only [suffixMatches, hmatch, if_pos]
          rw [List.append_assoc]
        · have htails : ¬ rem.take ntail.length = ntail := fun h =>
            hsucc (hcn.mpr h)
          have hmatch : wordMatchesAt tokens (n0 :: ntail) i = false := by
            rw [hwma]
            simp [htails]
          simp only [cwi_loop]
          rw [if_neg hnotlt, if_pos hA, if_neg hsucc,
            ih (n0 :: ntail) hne (i + 1) lc acc i hdrop1]
          simp [suffixMatches, hmatch]
      · by_cases hB : (n0 :: ntail).getD 0 0 = token
        · have hc1 : n0 = token := hB
          have hnt : ntail = [] := by
            have : ¬ 1 < (n0 :: ntail).length := fun h => hA ⟨hB, h⟩
            cases ntail with
            | nil => rfl
            | cons a b => exact absurd (by simp) this
          subst hnt
          have hmatch : wordMatchesAt tokens [n0] i = true := by
            rw [hwma]
            simp [hc1]
          simp only [cwi_loop]
          rw [if_neg hnotlt, if_neg hA, if_pos hB, if_neg hnolim,
            ih [n0] hne (i + 1) lc _ i hdrop1]
          simp only [suffixMatches, hmatch, if_pos, List.range'_one]
          rw [List.append_assoc]
          rfl
        · have hmatch : wordMatchesAt tokens (n0 :: ntail) i = false := by
            rw [hwma]
            simp only [List.cons_beq_cons, Bool.and_eq_false_iff]
            left
            simp only [beq_eq_false_iff_ne, ne_eq]
            intro h
            exact hB (h.symm ▸ rfl)
          simp only [cwi_loop]
          rw [if_neg hnotlt, if_neg hA, if_neg hB,
            ih (n0 :: ntail) hne (i + 1) lc acc i hdrop1]
          simp [suffixMatches, hmatch]

/-- For a single-token needle, the flattened match list collects exactly
the positions holding an equal token. -/
theorem suffixMatches_singleton (tokens : List Nat) (n : Nat) :
    ∀ (rem : List Nat) (i : Nat), tokens.drop i = rem →
      suffixMatches tokens [n] rem i =
        (List.range' i rem.length).filter (fun j => tokens.getD j 0 = n) := by
  intro rem
  induction rem with
  | nil => intro i _; simp [suffixMatches]
  | cons token rem ih =>
      intro i hdrop
      have hlt : i < tokens.length := by
        by_contra hle
        push_neg at hle
        rw [List.drop_eq_nil_of_le hle] at hdrop
        exact List.noConfusion hdrop
      have hcons : tokens[i] :: tokens.drop (i + 1) = token :: rem :=
        (List.drop_eq_getElem_cons hlt).symm.trans hdrop
      have htok : tokens[i] = token := by injection hcons
      have hdrop1 : tokens.drop (i + 1) = rem := by injection hcons
      have hget : (tokens.getD i 0) = token :=
        (List.getD_eq_getElem tokens 0 hlt).trans htok
      have hwma : wordMatchesAt tokens [n] i = (token == n) := by
        simp [wordMatchesAt, hdrop, List.take_succ_cons]
      simp only [suffixMatches, hwma, List.length_cons, List.range'_succ,
        List.filter_cons, hget, ih (i + 1) hdrop1]
      by_cases htn : token = n
      · simp [htn, List.range'_one]
      · simp [htn]

/-- Witness instantiating `C1_analyzer_invariant` at a concrete input:
one full 75-token chunk with `token_count = 75` (`context_size = 77`). -/
theorem C1_analyzer_invariant_witness :
    (PromptAnalyzer.ofChunks 49406 49407
        [⟨List.replicate 75 9, List.replicate 75 1⟩] 75).tokens.length =
      (PromptAnalyzer.ofChunks 49406 49407
        [⟨List.replicate 75 9, List.replicate 75 1⟩] 75).context_size ∧
    (PromptAnalyzer.ofChunks 49406 49407
        [⟨List.replicate 75 9, List.replicate 75 1⟩] 75).multipliers.length =
      (PromptAnalyzer.ofChunks 49406 49407
        [⟨List.replicate 75 9, List.replicate 75 1⟩] 75).context_size ∧
    (PromptAnalyzer.ofChunks 49406 49407
        [⟨List.replicate 75 9, List.replicate 75 1⟩] 75).context_size % 77 = 0 :=
  C1_analyzer_invariant 49406 49407 _ 75 (by decide) (by decide)

/-- Claim C3: the word-lookup scan with the default `limit = -1` and
`start_pos = 0` returns exactly the flattened positions of all needle
occurrences — a single-token needle matches every position holding an
equal token, a multi-token needle matches only where the full needle
sequence appears contiguously; for tokens `[S, A, B, C, E]` and needle
`[B, C]` the indices are `[2, 3]`, and an absent needle yields `[]`. -/
theorem C3_word_lookup :
    (∀ tokens needles : List Nat, needles ≠ [] →
      (calc_word_indecies tokens needles (-1) 0).1 =
        allMatchIndices tokens needles) ∧
    (∀ (tokens : List Nat) (n : Nat),
      (calc_word_indecies tokens [n] (-1) 0).1 =
        (List.range tokens.length).filter (fun j => tokens.getD j 0 = n)) ∧
    (calc_word_indecies [49406, 10, 20, 30, 49407] [20, 30] (-1) 0).1 =
      [2, 3] ∧
    (calc_word_indecies [49406, 10, 20, 30, 49407] [99] (-1) 0).1 = [] := by
  have hgen : ∀ tokens needles : List Nat, needles ≠ [] →
      (calc_word_indecies tokens needles (-1) 0).1 =
        allMatchIndices tokens needles := by
    intro tokens needles hne
    unfold calc_word_indecies allMatchIndices
    rw [cwi_loop_nonpos_eq tokens needles (-1) (by norm_num) hne
      tokens 0 0 [] 0 rfl]
    exact List.nil_append _
  refine ⟨hgen, fun tokens n => ?_, by decide, by decide⟩
  rw [hgen tokens [n] (by simp)]
  unfold allMatchIndices
  rw [suffixMatches_singleton tokens n tokens 0 rfl, List.range_eq_range']

/-- Witness instantiating `C3_word_lookup` at the concrete needle `[8]`. -/
theorem C3_word_lookup_witness :
    (calc_word_indecies [7, 8] [8] (-1) 0).1 = allMatchIndices [7, 8] [8] :=
  C3_word_lookup.1 [7, 8] [8] (by decide)

/-- Claim C8: with `limit = 1` and two non-overlapping matches present,
the scan stops early after exactly one match's indices (last scanned
position 1, not the end of the sequence); with `limit ≤ 0` the whole
sequence is scanned and all matches are returned. -/
theorem C8_word_lookup_limit :
    (calc_word_indecies [1, 2, 3, 9, 2, 3, 8] [2, 3] 1 0).1 = [1, 2] ∧
    (calc_word_indecies [1, 2, 3, 9, 2, 3, 8] [2, 3] 1 0).2 = 1 ∧
    (calc_word_indecies [1, 2, 3, 9, 2, 3, 8] [2, 3] (-1) 0).1 =
      [1, 2, 4, 5] ∧
    (∀ (tokens needles : List Nat) (limit : Int), needles ≠ [] → limit ≤ 0 →
      (calc_word_indecies tokens needles limit 0).1 =
        allMatchIndices tokens needles) := by
  refine ⟨by decide, by decide, by decide,
    fun tokens needles limit hne hlim => ?_⟩
  unfold calc_word_indecies allMatchIndices
  rw [cwi_loop_nonpos_eq tokens needles limit hlim hne tokens 0 0 [] 0 rfl]
  exact List.nil_append _

/-- Witness instantiating `C8_word_lookup_limit` at `limit = 0`. -/
theorem C8_word_lookup_limit_witness :
    (calc_word_indecies [5, 7] [7] 0 0).1 = allMatchIndices [5, 7] [7] :=
  C8_word_lookup_limit.2.2.2 [5, 7] [7] 0 (by decide) (by decide)

end WebuiDaam

namespace WebuiDaam

/-- Claim C4 (code-bug evaluation): the `Script.postprocess` insertion
loop does bump `index_of_first_image` by exactly the number of images it
inserts (first conjunct: the offset delta always equals the image-list
growth), but `add_to_start`'s list branch adds the length of the
already-extended list — original images included — instead of the number
of prepended images: with one original image, two prepended images and
offset 0 it yields offset 3 where exactly 2 images were inserted; the
single-image branch correctly adds 1. -/
theorem C4_offset_increment :
    (∀ (show_images use_grid grid_per_image : Bool)
      (heatmap_images : List Nat) (grid_img img_grid : Nat) (pr : Processed),
      (postprocess_insert_step show_images use_grid grid_per_image
          heatmap_images grid_img img_grid pr).index_of_first_image +
        pr.images.length =
      (postprocess_insert_step show_images use_grid grid_per_image
          heatmap_images grid_img img_grid pr).images.length +
        pr.index_of_first_image) ∧
    (add_to_start [10] (.inl [1, 2]) ["t"] "t" 0).1 = [1, 2, 10] ∧
    (add_to_start [10] (.inl [1, 2]) ["t"] "t" 0).2.2 = 3 ∧
    (add_to_start [10] (.inl [1, 2]) ["t"] "t" 0).2.2 ≠ 2 ∧
    (add_to_start [10] (.inr 1) ["t"] "t" 0).2.2 = 1 := by
  refine ⟨?_, rfl, rfl, by decide, rfl⟩
  intro show_images use_grid grid_per_image heatmap_images grid_img img_grid pr
  simp only [postprocess_insert_step]
  split_ifs <;>
    (try simp only [List.length_cons, List.length_append]) <;> omega

/-- Counterexample to claim C5 as stated: the caller
(`Script.before_image_saved`) does not omit a failed word's overlay from
the per-seed overlay sequence — it appends the `None` result.  With words
`["cat", "ball"]` and a collaborator that raises for `"ball"`, the
produced sequence is `[some overlay, none]`: it still has an entry (the
empty `none`) for the failed word. -/
theorem C5_overlay_counterexample :
    before_image_saved_heatmap_images ["cat", "ball"]
        (fun w _ => if w = "ball" then .error () else .ok 7) 3 true 1 0 =
      [some { heat := 7, image := 3, word := some "cat", alpha := 1 },
        none] ∧
    none ∈ before_image_saved_heatmap_images ["cat", "ball"]
        (fun w _ => if w = "ball" then .error () else .ok 7) 3 true 1 0 := by
  have h : before_image_saved_heatmap_images ["cat", "ball"]
      (fun w _ => if w = "ball" then .error () else .ok 7) 3 true 1 0 =
      [some { heat := 7, image := 3, word := some "cat", alpha := 1 },
        none] := by decide
  refine ⟨h, ?_⟩
  rw [h]
  simp

/-- Amended claim C5: when the collaborator raises a value error,
`create_heatmap_image_overlay` logs a warning and returns nothing
(`none`), and the caller appends that `none` to the per-seed overlay
sequence — one entry per requested word, failed words included as `none` —
rather than omitting it or failing the batch at this point. -/
theorem C5_overlay_error_handling :
    (∀ (compute : String → Nat → Except Unit Nat) (w : String) (img : Nat)
      (sw : Bool) (a : ℚ) (bi : Nat), compute w bi = .error () →
      create_heatmap_image_overlay compute w img sw a bi = none) ∧
    (∀ (attentions : List String)
      (compute : String → Nat → Except Unit Nat) (img : Nat) (sw : Bool)
      (a : ℚ) (bi : Nat),
      before_image_saved_heatmap_images attentions compute img sw a bi =
        attentions.map (fun w =>
          create_heatmap_image_overlay compute w img sw a bi) ∧
      (before_image_saved_heatmap_images attentions compute img sw a
        bi).length = attentions.length) := by
  constructor
  · intro compute w img sw a bi h
    simp [create_heatmap_image_overlay, h]
  · intro attentions compute img sw a bi
    exact ⟨rfl, List.length_map _ _⟩

/-- Witness instantiating `C5_overlay_error_handling` at an
always-failing collaborator. -/
theorem C5_overlay_error_handling_witness :
    create_heatmap_image_overlay (fun _ _ => .error ()) "cat" 0 true 1 0 =
      none :=
  C5_overlay_error_handling.1 (fun _ _ => .error ()) "cat" 0 true 1 0 rfl

/-- Claim C6: layout `Auto` behaves exactly as `Prevent Empty Spot` when
`batch_size * n_iter = 1` and exactly as `Batch Length As Row` otherwise,
and any other layout string makes `make_grid` raise the
`Invalid grid layout` runtime fault. -/
theorem C6_make_grid_layout :
    (∀ (bs ni na ns : Nat) (imgs : List Nat) (lar : Bool), bs * ni = 1 →
      make_grid GRID_LAYOUT_AUTO bs ni na ns imgs lar =
        make_grid GRID_LAYOUT_PREVENT_EMPTY bs ni na ns imgs lar) ∧
    (∀ (bs ni na ns : Nat) (imgs : List Nat) (lar : Bool), bs * ni ≠ 1 →
      make_grid GRID_LAYOUT_AUTO bs ni na ns imgs lar =
        make_grid GRID_LAYOUT_BATCH_LENGTH_AS_ROW bs ni na ns imgs lar) ∧
    (∀ (gl : String) (bs ni na ns : Nat) (imgs : List Nat) (lar : Bool),
      gl ≠ GRID_LAYOUT_AUTO → gl ≠ GRID_LAYOUT_PREVENT_EMPTY →
      gl ≠ GRID_LAYOUT_BATCH_LENGTH_AS_ROW →
      make_grid gl bs ni na ns imgs lar =
        .error ("Invalid grid layout: " ++ gl)) := by
  refine ⟨?_, ?_, ?_⟩
  · intro bs ni na ns imgs lar h
    simp [make_grid, GRID_LAYOUT_AUTO, GRID_LAYOUT_PREVENT_EMPTY,
      GRID_LAYOUT_BATCH_LENGTH_AS_ROW, h]
  · intro bs ni na ns imgs lar h
    simp [make_grid, GRID_LAYOUT_AUTO, GRID_LAYOUT_PREVENT_EMPTY,
      GRID_LAYOUT_BATCH_LENGTH_AS_ROW, h]
  · intro gl bs ni na ns imgs lar h1 h2 h3
    simp [make_grid, h1, h2, h3]

/-- Witness instantiating `C6_make_grid_layout` at concrete batch shapes
`1 × 1`, `2 × 2` and at the unknown layout string `"Bogus"`. -/
theorem C6_make_grid_layout_witness :
    make_grid GRID_LAYOUT_AUTO 1 1 2 3 [9] false =
      make_grid GRID_LAYOUT_PREVENT_EMPTY 1 1 2 3 [9] false ∧
    make_grid GRID_LAYOUT_AUTO 2 2 2 3 [9] false =
      make_grid GRID_LAYOUT_BATCH_LENGTH_AS_ROW 2 2 2 3 [9] false ∧
    make_grid "Bogus" 2 2 2 3 [9] false =
      .error ("Invalid grid layout: " ++ "Bogus") :=
  ⟨C6_make_grid_layout.1 1 1 2 3 [9] false (by decide),
   C6_make_grid_layout.2.1 2 2 2 3 [9] false (by decide),
   C6_make_grid_layout.2.2 "Bogus" 2 2 2 3 [9] false (by decide)
     (by decide) (by decide)⟩

/-- A comprehension whose body always succeeds is the plain map wrapped
in `Except.ok`. -/
theorem collectExcept_ok {α β : Type} (h : α → β) :
    ∀ l : List α,
      collectExcept (fun x => (Except.ok (h x) : Except Unit β)) l =
        .ok (l.map h) := by
  intro l
  induction l with
  | nil => rfl
  | cons a l ih =>
      simp only [collectExcept, ih]
      rfl

/-- A comprehension with a failing element fails. -/
theorem collectExcept_error {α β : Type} (f : α → Except Unit β) :
    ∀ l : List α, (∃ a ∈ l, f a = .error ()) →
      collectExcept f l = .error () := by
  intro l
  induction l with
  | nil => rintro ⟨x, hx, _⟩; exact absurd hx (List.not_mem_nil x)
  | cons a l ih =>
      rintro ⟨x, hx, hfx⟩
      rcases List.mem_cons.mp hx with rfl | hmem
      · show (do
          let b ← f x
          let bs ← collectExcept f l
          pure (b :: bs) : Except Unit (List β)) = .error ()
        rw [hfx]
        rfl
      · show (do
          let b ← f a
          let bs ← collectExcept f l
          pure (b :: bs) : Except Unit (List β)) = .error ()
        cases hfa : f a with
        | error e => cases e; rfl
        | ok b =>
            simp only [hfa, ih ⟨x, hmem, hfx⟩]
            rfl

/-- Claim C7: with per-layer tracing on, `calc_global_heatmap` requests
one heat map per layer index in `range(num_input + 1 + num_output)`; with
it off, exactly one aggregate heat map; and when the collaborator raises
a runtime fault anywhere, the warning path returns the empty list instead
of propagating. -/
theorem C7_calc_global_heatmap :
    (∀ (nin nout : Nat) (g : Option Nat → Nat),
      calc_global_heatmap nin nout true (fun o => .ok (g o)) =
        (List.range (nin + 1 + nout)).map fun layer_idx =>
          g (some layer_idx)) ∧
    (∀ (nin nout : Nat) (g : Option Nat → Nat),
      calc_global_heatmap nin nout false (fun o => .ok (g o)) = [g none]) ∧
    (∀ (nin nout : Nat) (f : Option Nat → Except Unit Nat),
      (∃ i ∈ List.range (nin + 1 + nout), f (some i) = .error ()) →
      calc_global_heatmap nin nout true f = []) ∧
    (∀ (nin nout : Nat) (f : Option Nat → Except Unit Nat),
      f none = .error () → calc_global_heatmap nin nout false f = []) := by
  refine ⟨fun nin nout g => ?_, fun nin nout g => rfl,
    fun nin nout f hex => ?_, fun nin nout f hf => ?_⟩
  · simp [calc_global_heatmap, collectExcept_ok]
  · simp [calc_global_heatmap,
      collectExcept_error (fun layer_idx => f (some layer_idx)) _ hex]
  · simp [calc_global_heatmap, hf]

/-- Witness instantiating `C7_calc_global_heatmap` at a collaborator that
always raises, with 2 input and 3 output blocks. -/
theorem C7_calc_global_heatmap_witness :
    calc_global_heatmap 2 3 true (fun _ => (.error () : Except Unit Nat)) =
      [] ∧
    calc_global_heatmap 2 3 false (fun _ => (.error () : Except Unit Nat)) =
      [] :=
  ⟨C7_calc_global_heatmap.2.2.1 2 3 _ ⟨0, by decide, rfl⟩,
   C7_calc_global_heatmap.2.2.2 2 3 _ rfl⟩

/-- Claim C9: `try_unhook` is idempotent and never raises — with no trace
(`none`), or with a trace whose `unhook` raises because it is already
unhooked, the fault is swallowed and the state is unchanged, so a second
call in a row produces no further effect. -/
theorem C9_try_unhook_idempotent :
    (∀ trace : Option Trace,
      try_unhook (try_unhook trace) = try_unhook trace) ∧
    try_unhook none = none ∧
    try_unhook (some { hooked := false }) = some { hooked := false } ∧
    try_unhook (try_unhook (some { hooked := true })) =
      try_unhook (some { hooked := true }) := by
  refine ⟨?_, rfl, rfl, rfl⟩
  intro trace
  match trace with
  | none => rfl
  | some ⟨true⟩ => rfl
  | some ⟨false⟩ => rfl

/-- Every character the colon-number scanner keeps was present in its
input (in particular it introduces no bracket characters). -/
theorem rcnFuel_subset (c : Char) :
    ∀ (fuel : Nat) (l : List Char), c ∈ rcnFuel fuel l → c ∈ l := by
  intro fuel
  induction fuel with
  | zero => intro l h; exact h
  | succ k ih =>
      intro l h
      cases l with
      | nil => simp [rcnFuel] at h
      | cons a rest =>
          simp only [rcnFuel] at h
          by_cases hc : a = ':' ∧ (rest.headD ' ').isDigit = true
          · rw [if_pos hc] at h
            have hsub :
                (((rest.dropWhile Char.isDigit).dropWhile
                  (fun ch => ch == '.')).dropWhile Char.isDigit).Sublist
                  rest :=
              ((List.dropWhile_sublist _).trans
                (List.dropWhile_sublist _)).trans (List.dropWhile_sublist _)
            exact List.mem_cons_of_mem _ (hsub.subset (ih _ h))
          · rw [if_neg hc] at h
            rcases List.mem_cons.mp h with rfl | h2
            · exact List.mem_cons_self _ _
            · exact List.mem_cons_of_mem _ (ih _ h2)

/-- The element-wise list helper agrees with `List.map`. -/
theorem escape_prompt_list_eq_map :
    ∀ l : List PyVal, escape_prompt_list l = l.map escape_prompt := by
  intro l
  induction l with
  | nil => rfl
  | cons p rest ih => simp [escape_prompt_list, ih]

/-- Claim C10: `escape_prompt` returns `None` for any input that is
neither a string nor a list; a string is lower-cased with every bracket
character removed and every `:` followed by a number removed; a list is
mapped element-wise through the same transformation (non-string,
non-list elements becoming `None` inside the list).  The final conjunct
checks that no bracket character survives in any transformed string. -/
theorem C10_escape_prompt :
    escape_prompt PyVal.none = PyVal.none ∧
    escape_prompt PyVal.other = PyVal.none ∧
    (∀ v : PyVal, escape_prompt v = PyVal.none ∨
      (∃ s, v = PyVal.str s) ∨ (∃ l, v = PyVal.list l)) ∧
    (∀ s : String,
      escape_prompt (PyVal.str s) = PyVal.str (escape_prompt_text s)) ∧
    (∀ l : List PyVal,
      escape_prompt (PyVal.list l) = PyVal.list (l.map escape_prompt)) ∧
    escape_prompt (PyVal.str "A (Cat:1.5) [DOG:2]:x") =
      PyVal.str "a cat dog:x" ∧
    escape_prompt (PyVal.list [PyVal.str "(A)", PyVal.other]) =
      PyVal.list [PyVal.str "a", PyVal.none] ∧
    (∀ s : String, ((escape_prompt_text s).data.all fun c =>
      !(c == '(' || c == ')' || c == '[' || c == ']')) = true) := by
  refine ⟨rfl, rfl, ?_, fun s => rfl, ?_,
    congrArg PyVal.str (by decide), rfl, ?_⟩
  · intro v
    cases v with
    | str s => exact Or.inr (Or.inl ⟨s, rfl⟩)
    | list l => exact Or.inr (Or.inr ⟨l, rfl⟩)
    | none => exact Or.inl rfl
    | other => exact Or.inl rfl
  · intro l
    show PyVal.list (escape_prompt_list l) = _
    rw [escape_prompt_list_eq_map]
  · intro s
    rw [List.all_eq_true]
    intro c hc
    have hmem : c ∈ (s.data.map Char.toLower).filter fun ch =>
        !(ch == '(' || ch == ')' || ch == '[' || ch == ']') :=
      rcnFuel_subset c _ _ hc
    have hp := (List.mem_filter.mp hmem).2
    simp only [Bool.not_eq_true'] at hp ⊢
    exact hp

end WebuiDaam
